import Mathlib

/-!
# dnslogger: the DNS question filter, the packet handler and the whitelist refresh

A shallow embedding of `handler/packetHandler.go` and `handler/sendData.go`.

* Go strings are byte strings; here a string is a list of characters, one per byte.
* Calls into libraries (`regexp`, `bufio`, `net/http`, `os`, `gopacket`) are either
  parameters of the embedded functions or small models written from the libraries'
  documented behaviour; each is marked as such.
* A function that may end the process returns an `Exec`: a value, `os.Exit`, or a panic.
-/

set_option autoImplicit false

namespace DnsLogger

/-! ## Basic types -/

/-- Go `string`: a sequence of bytes, one `Char` for each byte. -/
abbrev GoString := List Char

/-- Go `error` value, identified by its message. -/
abbrev Error := String

/-- How a call ends: it returns a value, the process exits (`os.Exit`, reached
through `log.Fatal`), or the goroutine panics (which ends the process). -/
inductive Exec (α : Type) where
  | ret (a : α)
  | exit (code : Nat)
  | panic (msg : String)
  deriving DecidableEq, Repr

/-- A call's effect on the log together with how it ended. -/
structure Run (α : Type) where
  log : List Error
  out : Exec α
  deriving DecidableEq, Repr

/-! ## Package `strings` (Go standard library, as documented) -/

/-- Go `strings.HasSuffix`. -/
def HasSuffix (s suffix : GoString) : Bool :=
  decide (suffix.length ≤ s.length) && (s.drop (s.length - suffix.length) == suffix)

/-- Go `strings.TrimSuffix`: `s` without the trailing `suffix`, or `s` itself. -/
def TrimSuffix (s suffix : GoString) : GoString :=
  if HasSuffix s suffix then s.take (s.length - suffix.length) else s

/-- Go `strings.HasPrefix`. -/
def HasPrefix : GoString → GoString → Bool
  | _, [] => true
  | [], _ :: _ => false
  | c :: s, d :: p => c == d && HasPrefix s p

/-- Go `strings.Index`: position of the first occurrence of `substr`, `none` for -1. -/
def Index : GoString → GoString → Option Nat
  | [], substr => if substr = [] then some 0 else none
  | c :: s, substr =>
    if HasPrefix (c :: s) substr then some 0
    else (Index s substr).map (· + 1)

/-- The loop of Go `strings.Count` for a non-empty `substr`; `fuel` bounds the
number of iterations (each consumes at least one byte). -/
def countLoop (substr : GoString) : Nat → GoString → Nat
  | 0, _ => 0
  | fuel + 1, s =>
    match Index s substr with
    | none => 0
    | some i => countLoop substr fuel (s.drop (i + substr.length)) + 1

/-- Go `strings.Count`: non-overlapping occurrences of `substr`. -/
def Count (s substr : GoString) : Nat :=
  if substr = [] then s.length + 1 else countLoop substr s.length s

/-- The loop `for i < n` of Go `strings.genSplit`, with `n - i` as first argument. -/
def genSplitLoop (sep : GoString) : Nat → GoString → List GoString
  | 0, s => [s]
  | n + 1, s =>
    match Index s sep with
    | none => [s]
    | some m => s.take m :: genSplitLoop sep n (s.drop (m + sep.length))

/-- Go `strings.Split(s, sep)`, that is `genSplit(s, sep, 0, -1)`. -/
def Split (s sep : GoString) : List GoString :=
  if sep = [] then s.map (fun c => [c])
  else genSplitLoop sep (min (Count s sep + 1) (s.length + 1) - 1) s

/-! ## Package `regexp` (a parameter) -/

/-- The part of Go's `regexp` package the filter uses: compiling a pattern, which
may fail, and testing a compiled expression against a string. -/
structure RegexpPkg where
  Regexp : Type
  Compile : GoString → Except Error Regexp
  Match : Regexp → GoString → Bool

/-- Go `regexp.MatchString(pattern, s)`: `(false, err)` when the pattern does
not compile, else `(re.MatchString(s), nil)`. -/
def RegexpPkg.MatchString (R : RegexpPkg) (pattern s : GoString) : Bool × Option Error :=
  match R.Compile pattern with
  | .error err => (false, some err)
  | .ok re => (R.Match re s, none)

/-- A pattern is a valid regular expression when it compiles. -/
def RegexpPkg.Valid (R : RegexpPkg) (pattern : GoString) : Bool :=
  match R.Compile pattern with
  | .error _ => false
  | .ok _ => true

/-! ## The whitelist as `FilterPacket` reads it -/

/-- The whitelist `*os.File` as the `bufio.Scanner` (split function `ScanLines`)
reads it from offset 0: the tokens that successive `Scan` calls yield, and the
value of `Err` once `Scan` has returned false. -/
structure Whitelist where
  lines : List GoString
  err : Option Error
  deriving DecidableEq, Repr

/-- gopacket `layers.DNSQuestion`. -/
structure DNSQuestion where
  Name : GoString
  Type' : Nat
  Class : Nat
  deriving DecidableEq, Repr

/-! ## `FilterPacket` -/

/-- The loop `for scanner.Scan() { ... }` of `FilterPacket`: true when it leaves
through `return 1`, false when the tokens run out. -/
def scanLoop (R : RegexpPkg) (name : GoString) : List GoString → Bool
  | [] => false
  | pattern :: rest =>
    let found := (R.MatchString pattern name).1
    if found then true else scanLoop R name rest

/-- `FilterPacket`: non-zero when the question is to be dropped. -/
def FilterPacket (R : RegexpPkg) (question : DNSQuestion) (whitelist : Whitelist) : Run Int :=
  let name := question.Name
  let name := TrimSuffix name ".".toList
  let stringsName := Split name ".".toList
  match stringsName[stringsName.length - 1]? with
  | none => ⟨[], .panic "index out of range"⟩
  | some last =>
    if last = "local".toList then ⟨[], .ret 1⟩
    else if scanLoop R name whitelist.lines then ⟨[], .ret 1⟩
    else
      match whitelist.err with
      | some err => ⟨[err], .exit 1⟩
      | none => ⟨[], .ret 0⟩

/-! ## `bufio.Scanner` with `bufio.ScanLines` over a file's bytes

A model of the scanner written from the package documentation: a token is a line
without its end-of-line marker (one optional carriage return, then a newline);
a last line without newline is returned when it is non-empty; a line that does
not fit the scanner's buffer ends the scan with `ErrTooLong`. -/

/-- Go `bufio.MaxScanTokenSize`. -/
def MaxScanTokenSize : Nat := 64 * 1024

/-- Go `bufio.ErrTooLong`. -/
def ErrTooLong : Error := "bufio.Scanner: token too long"

/-- Go `bufio.dropCR`: drop one trailing carriage return. -/
def dropCR (data : GoString) : GoString :=
  if data.getLast? = some '\r' then data.dropLast else data

/-- Scan `data` line by line; `cur` holds the bytes of the line being read, most
recent first, and `maxTok` is the buffer limit. -/
def scanFrom (maxTok : Nat) : GoString → GoString → Whitelist
  | [], cur =>
    if cur = [] then ⟨[], none⟩
    else if cur.length < maxTok then ⟨[dropCR cur.reverse], none⟩
    else ⟨[], some ErrTooLong⟩
  | c :: rest, cur =>
    if c = '\n' then
      if cur.length < maxTok then
        let w := scanFrom maxTok rest []
        ⟨dropCR cur.reverse :: w.lines, w.err⟩
      else ⟨[], some ErrTooLong⟩
    else scanFrom maxTok rest (c :: cur)

/-- The whitelist a file with content `data` presents to `FilterPacket`. -/
def scanFile (data : GoString) : Whitelist :=
  scanFrom MaxScanTokenSize data []

/-- The lines of a text: the tokens of `scanFrom` when no limit is put on the
length of a line. -/
def linesFrom : GoString → GoString → List GoString
  | [], cur => if cur = [] then [] else [dropCR cur.reverse]
  | c :: rest, cur =>
    if c = '\n' then dropCR cur.reverse :: linesFrom rest []
    else linesFrom rest (c :: cur)

/-- The sequence of lines of a file with content `data`. -/
def fileLines (data : GoString) : List GoString :=
  linesFrom data []

/-- A line of `MaxScanTokenSize` bytes: with its newline it does not fit the
buffer of the scanner. -/
def longLine : GoString := List.replicate MaxScanTokenSize 'b'

/-- A whitelist file: the line "a", then the long line. -/
def whitelistFileA : GoString := 'a' :: '\n' :: (longLine ++ ['\n'])

/-- A whitelist file: the long line, then the line "a". -/
def whitelistFileB : GoString := longLine ++ ['\n', 'a', '\n']

/-! ## A reference instance of the `regexp` parameter

A matcher for a fragment of the RE2 syntax Go uses: literal bytes, `.`, a
backslash before punctuation, the postfix operators `*`, `+`, `?` (and their
non-greedy forms), alternation and groups. It is used to evaluate the filter on
concrete patterns; a pattern outside the fragment is reported as such. -/

/-- Regular expressions of the fragment. -/
inductive Re where
  | none
  | eps
  | chr (c : Char)
  | any
  | cat (a b : Re)
  | alt (a b : Re)
  | star (a : Re)
  deriving DecidableEq, Repr

/-- Whether the expression matches the empty string. -/
def Re.nullable : Re → Bool
  | .none => false
  | .eps => true
  | .chr _ => false
  | .any => false
  | .cat a b => a.nullable && b.nullable
  | .alt a b => a.nullable || b.nullable
  | .star _ => true

/-- The derivative of an expression by one byte; `.` matches any byte but a newline. -/
def Re.deriv (c : Char) : Re → Re
  | .none => .none
  | .eps => .none
  | .chr d => if c = d then .eps else .none
  | .any => if c = '\n' then .none else .eps
  | .cat a b =>
    if a.nullable then .alt (.cat (a.deriv c) b) (b.deriv c) else .cat (a.deriv c) b
  | .alt a b => .alt (a.deriv c) (b.deriv c)
  | .star a => .cat (a.deriv c) (.star a)

/-- Whether the expression matches some prefix of the string. -/
def Re.matchHere : Re → GoString → Bool
  | r, [] => r.nullable
  | r, c :: s => r.nullable || Re.matchHere (r.deriv c) s

/-- Whether the expression matches somewhere in the string (an unanchored match). -/
def Re.matchAnywhere (r : Re) : GoString → Bool
  | [] => r.nullable
  | c :: s => r.matchHere (c :: s) || Re.matchAnywhere r s

/-- One level of the parser's stack: the alternatives finished so far and the
factors of the alternative being read, most recent first. -/
structure Frame where
  alts : List Re
  seq : List Re
  deriving Repr

/-- Add a factor to the alternative being read. -/
def Frame.push (f : Frame) (r : Re) : Frame := { f with seq := r :: f.seq }

/-- The expression a finished level stands for. -/
def Frame.close (f : Frame) : Re :=
  f.alts.foldl (fun acc r => Re.alt r acc) (f.seq.foldl (fun acc r => Re.cat r acc) Re.eps)

/-- Apply a postfix operator to the last factor read. -/
def Frame.applyOp (f : Frame) (op : Char) : Option Frame :=
  match f.seq with
  | [] => Option.none
  | r :: rs =>
    let r' := if op = '*' then Re.star r else if op = '+' then Re.cat r (Re.star r)
      else Re.alt r Re.eps
    some { f with seq := r' :: rs }

/-- ASCII punctuation, which a backslash makes literal. -/
def isPunct (c : Char) : Bool :=
  decide (c.toNat < 128) && !c.isAlphanum && decide (32 < c.toNat) && decide (c.toNat ≠ 127)

/-- What the parser read last: a backslash, a repetition operator (which a `?`
may follow to make it non-greedy), a non-greedy repetition, an opening
parenthesis, or anything else. -/
inductive Prev where
  | other
  | backslash
  | repeated
  | nongreedy
  | opened
  deriving DecidableEq, Repr

/-- Parse a pattern byte by byte; `f` is the level being read and `stack` the
levels around it. -/
def parseLoop : GoString → Prev → Frame → List Frame → Except Error Re
  | [], prev, f, stack =>
    if prev = .backslash then .error "trailing backslash at end of expression"
    else
      match stack with
      | [] => .ok f.close
      | _ :: _ => .error "missing closing )"
  | c :: rest, prev, f, stack =>
    if prev = .backslash then
      if isPunct c then parseLoop rest .other (f.push (.chr c)) stack
      else .error "outside the fragment: escape sequence"
    else if c = '\\' then parseLoop rest .backslash f stack
    else if c = '(' then parseLoop rest .opened ⟨[], []⟩ (f :: stack)
    else if c = ')' then
      match stack with
      | [] => .error "unexpected )"
      | g :: stack' => parseLoop rest .other (g.push f.close) stack'
    else if c = '|' then
      parseLoop rest .other ⟨f.seq.foldl (fun acc r => Re.cat r acc) Re.eps :: f.alts, []⟩ stack
    else if c = '?' ∧ prev = .opened then .error "outside the fragment: group flags"
    else if c = '?' ∧ prev = .repeated then parseLoop rest .nongreedy f stack
    else if c = '*' ∨ c = '+' ∨ c = '?' then
      if prev = .repeated ∨ prev = .nongreedy then .error "invalid nested repetition operator"
      else
        match f.applyOp c with
        | Option.none => .error "missing argument to repetition operator"
        | some f' => parseLoop rest .repeated f' stack
    else if c = '.' then parseLoop rest .other (f.push .any) stack
    else if c = '[' ∨ c = '{' ∨ c = '^' ∨ c = '$' then .error "outside the fragment"
    else parseLoop rest .other (f.push (.chr c)) stack

/-- The reference instance: patterns of the fragment, matched unanchored. -/
def re2 : RegexpPkg where
  Regexp := Re
  Compile := fun pattern => parseLoop pattern .other ⟨[], []⟩ []
  Match := fun re s => re.matchAnywhere s

/-! ## `HandlePacket`: the questions of one packet -/

/-- `SendDataStruct` of `sendData.go`; a time is a number of clock ticks. -/
structure SendDataStruct where
  TimePacket : Nat
  Host : GoString
  QueryName : GoString
  QueryType : GoString
  deriving DecidableEq, Repr

/-- What a piece of `HandlePacket` did: the values it sent on `sendBuffer`, in
order, the log, the number of `time.Now` calls so far, and how it ended. -/
structure Sent where
  events : List SendDataStruct
  log : List Error
  tick : Nat
  out : Exec Unit
  deriving DecidableEq, Repr

/-- The loop `for _, question := range dnsContent.Questions` of `HandlePacket`.
`typeString` is gopacket's `DNSType.String`, `clock n` the value of the `n`-th
`time.Now()`, `sendData` the variable the loop assigns and sends. -/
def questionsLoop (R : RegexpPkg) (typeString : Nat → GoString) (clock : Nat → Nat)
    (hostname : GoString) (whitelist : Whitelist) :
    List DNSQuestion → SendDataStruct → Nat → Sent
  | [], _, tick => ⟨[], [], tick, .ret ()⟩
  | question :: rest, sendData, tick =>
    let r := FilterPacket R question whitelist
    match r.out with
    | .panic msg => ⟨[], r.log, tick, .panic msg⟩
    | .exit code => ⟨[], r.log, tick, .exit code⟩
    | .ret n =>
      if n ≠ 0 then
        let s := questionsLoop R typeString clock hostname whitelist rest sendData tick
        ⟨s.events, r.log ++ s.log, s.tick, s.out⟩
      else
        let sendData := { sendData with QueryName := question.Name }
        let sendData := { sendData with QueryType := typeString question.Type' }
        let sendData := { sendData with TimePacket := clock tick }
        let sendData := { sendData with Host := hostname }
        let s := questionsLoop R typeString clock hostname whitelist rest sendData (tick + 1)
        ⟨sendData :: s.events, r.log ++ s.log, s.tick, s.out⟩

/-- The body of `HandlePacket`'s loop after the packet is received: `packet` is
the question list of the packet's DNS layer, `none` when it has no such layer. -/
def handleOnePacket (R : RegexpPkg) (typeString : Nat → GoString) (clock : Nat → Nat)
    (hostname : GoString) (whitelist : Whitelist) (packet : Option (List DNSQuestion))
    (tick : Nat) : Sent :=
  match packet with
  | none => ⟨[], [], tick, .ret ()⟩
  | some questions =>
    questionsLoop R typeString clock hostname whitelist questions ⟨0, [], [], []⟩ tick

/-! ## The etag, the whitelist file and their refresh -/

/-- A non-nil `*os.File`: the open-file object, told apart from every other by
`id`, and the name it was opened with. -/
structure OsFile where
  id : Nat
  name : GoString
  deriving DecidableEq, Repr

/-- The state the goroutines share with the operating system: the global
`etagStruct.etag`, the files of the working directory (name and content), the
open file objects with their status flags, and the number of files opened so far. -/
structure World where
  etag : GoString
  files : List (GoString × GoString)
  opened : List (Nat × Nat)
  nextId : Nat
  deriving DecidableEq, Repr

/-- The answer to `http.Get(WhitelistURI)`: the two headers the code reads
(`Header.Get` gives the empty string for a missing header), the bytes the body
delivers and the error that ends it, if any. -/
structure Response where
  etag : GoString
  contentLength : GoString
  body : GoString
  bodyErr : Option Error
  deriving DecidableEq, Repr

/-- The length a Content-Length header declares, as `net/http` reads it: the
value of a non-empty string of decimal digits, nothing for any other string. -/
def declaredLength (header : GoString) : Option Nat :=
  if header ≠ [] ∧ header.all Char.isDigit then
    some (header.foldl (fun n c => 10 * n + (c.toNat - '0'.toNat)) 0)
  else none

/-- What `net/http` can deliver: when a length is declared, a body that ends
without error has exactly that many bytes (a shorter one ends with the error
"unexpected EOF", and bytes beyond the declared length are not read). -/
def Response.deliverable (resp : Response) : Bool :=
  match declaredLength resp.contentLength, resp.bodyErr with
  | some n, none => decide (resp.body.length = n)
  | some n, some _ => decide (resp.body.length ≤ n)
  | none, _ => true

/-- `getEtag`. -/
def getEtag (w : World) : GoString := w.etag

/-- `setEtag`. -/
def setEtag (newEtag : GoString) (w : World) : World := { w with etag := newEtag }

/-- Go `os.O_RDONLY`. -/
def O_RDONLY : Nat := 0

/-- Go `os.O_RDWR`. -/
def O_RDWR : Nat := 2

/-- `unix.FcntlInt(f.Fd(), unix.F_GETFL, 0)`: the status flags, or an error for
a file that is not open. -/
def fcntlGetFl (w : World) (f : OsFile) : Except Error Nat :=
  match w.opened.lookup f.id with
  | some flags => .ok flags
  | none => .error "bad file descriptor"

/-- `unix.FcntlInt(f.Fd(), unix.F_SETFL, flags)`: the access mode (the two low
bits) stays, the other status flags are replaced. -/
def fcntlSetFl (w : World) (f : OsFile) (flags : Nat) : Except Error World :=
  match w.opened.lookup f.id with
  | some old =>
    .ok { w with opened := (f.id, old % 4 + flags / 4 * 4) :: w.opened.filter (fun e => e.1 ≠ f.id) }
  | none => .error "bad file descriptor"

/-- `(*os.File).Close`: the file object is no longer open; the error is not looked at. -/
def closeFile (w : World) (f : OsFile) : World :=
  { w with opened := w.opened.filter (fun e => e.1 ≠ f.id) }

/-- `os.Remove`: the name leaves the directory, or an error when it is not there. -/
def osRemove (w : World) (name : GoString) : Except Error World :=
  match w.files.lookup name with
  | some _ => .ok { w with files := w.files.filter (fun e => e.1 ≠ name) }
  | none => .error "remove: no such file or directory"

/-- Whether `name` names a file of the working directory, which has no
subdirectories: it has no "/" and no NUL byte, and at most 255 bytes. -/
def validFileName (name : GoString) : Bool :=
  !name.contains '/' && !name.contains (Char.ofNat 0) && decide (name.length ≤ 255)

/-- `os.OpenFile(name, os.O_CREATE|os.O_RDWR, 0644)`: an error for a name the
directory cannot hold; else the file is created empty when it is not there,
and is not truncated when it is. -/
def openFile (w : World) (name : GoString) : Except Error (World × OsFile) :=
  if validFileName name then
    let files := match w.files.lookup name with
      | some _ => w.files
      | none => (name, []) :: w.files
    .ok ({ w with files := files, opened := (w.nextId, O_RDWR) :: w.opened,
                  nextId := w.nextId + 1 },
      ⟨w.nextId, name⟩)
  else .error "open: no such file or directory"

/-- `io.Copy(whitelist, resp.Body)` on a freshly opened file: the body's bytes
replace the start of the file's content. -/
def writeBody (w : World) (f : OsFile) (body : GoString) : World :=
  { w with files := w.files.map (fun e =>
      if e.1 = f.name then (e.1, body ++ e.2.drop body.length) else e) }

/-- Go `fmt.Sprintf("%d", n)` for a byte count. -/
def sprintfD (n : Nat) : GoString := Nat.toDigits 10 n

/-- The first block of `updateWhiteList` ("save flags, close file and then delete
it"): the value of `flags` afterwards, or the error it panics with. -/
def releaseOld (whitelist : Option OsFile) (w : World) : World × Except Error Int :=
  match whitelist with
  | none => (w, .ok (-1))
  | some old =>
    match fcntlGetFl w old with
    | .error err => (w, .error err)
    | .ok flags =>
      let fileName := old.name
      let w := closeFile w old
      match osRemove w fileName with
      | .error err => (w, .error err)
      | .ok w => (w, .ok (flags : Int))

/-- The rest of `updateWhiteList`, from `http.Get` on; `get` is the outcome of
that call and `flags` the variable set by the first block. -/
def download (flags : Int) (get : Except Error Response) (w : World) : World × Exec OsFile :=
  match get with
  | .error err => (w, .panic err)
  | .ok resp =>
    let etag := resp.etag
    if etag = [] then (w, .panic "Etag not found in header")
    else
      match openFile w ("whitelist-".toList ++ etag) with
      | .error err => (w, .panic err)
      | .ok (w, whitelist) =>
        let w := writeBody w whitelist resp.body
        match resp.bodyErr with
        | some err => (w, .panic err)
        | none =>
          let bytes := resp.body.length
          if sprintfD bytes ≠ resp.contentLength then
            (w, .panic "Couldn't get full DNS whitelist")
          else
            let set := if flags ≠ -1 then fcntlSetFl w whitelist flags.toNat
              else fcntlSetFl w whitelist O_RDONLY
            match set with
            | .error err => (w, .panic err)
            | .ok w => (setEtag etag w, .ret whitelist)

/-- `updateWhiteList`: `whitelist` is the argument (`none` for nil), `get` the
outcome of its `http.Get`. Returns the world it leaves and how it ends. -/
def updateWhiteList (whitelist : Option OsFile) (get : Except Error Response) (w : World) :
    World × Exec OsFile :=
  match releaseOld whitelist w with
  | (w, .error err) => (w, .panic err)
  | (w, .ok flags) => download flags get w

/-- One round of `UpdatesWatcher`'s loop, up to the sleep; `get` is the outcome
of its `http.Get`. -/
def UpdatesWatcher (get : Except Error Response) (w : World) : World × Exec Unit :=
  match get with
  | .error err => (w, .panic err)
  | .ok resp =>
    let etag := resp.etag
    if etag = [] then (w, .panic "Etag not found in header")
    else if etag ≠ getEtag w then (setEtag etag w, .ret ())
    else (w, .ret ())

/-- The local variables of `HandlePacket` that live across its loop. -/
structure Handler where
  hostname : GoString
  whitelist : OsFile
  etag : GoString
  deriving DecidableEq, Repr

/-- The start of `HandlePacket`, after `os.Hostname`: the first
`updateWhiteList(nil)` and the first `getEtag`. -/
def HandlePacketInit (hostname : GoString) (get : Except Error Response) (w : World) :
    World × Exec Handler :=
  match updateWhiteList none get w with
  | (w, .ret whitelist) => (w, .ret ⟨hostname, whitelist, getEtag w⟩)
  | (w, .exit code) => (w, .exit code)
  | (w, .panic msg) => (w, .panic msg)

/-- The start of each round of `HandlePacket`'s loop: the check for etag
updates. `get` is the outcome of the `http.Get` that `updateWhiteList` makes
when it is called. The second component counts the calls of `updateWhiteList`. -/
def updateCheck (get : Except Error Response) (w : World) (h : Handler) :
    World × Nat × Exec Handler :=
  if getEtag w ≠ h.etag then
    match updateWhiteList (some h.whitelist) get w with
    | (w, .ret whitelist) => (w, 1, .ret { h with whitelist := whitelist, etag := getEtag w })
    | (w, .exit code) => (w, 1, .exit code)
    | (w, .panic msg) => (w, 1, .panic msg)
  else (w, 0, .ret h)

/-- The whitelist a file object presents to `FilterPacket`: the scan of the
file's content, or a read error for a file that is not open. -/
def readWhitelist (w : World) (f : OsFile) : Whitelist :=
  match w.opened.lookup f.id, w.files.lookup f.name with
  | some _, some data => scanFile data
  | _, _ => ⟨[], some "read: file already closed"⟩

/-- Whether a file object is open. -/
def World.isOpen (w : World) (f : OsFile) : Bool := (w.opened.lookup f.id).isSome

/-- Whether the directory has a file of that name. -/
def World.hasFile (w : World) (name : GoString) : Bool := (w.files.lookup name).isSome

/-- The states `HandlePacket` can be in at the top of its loop: after its start
from any world, after a round of `UpdatesWatcher`, and after its own update check. -/
inductive Reachable : World → Handler → Prop where
  | init (hostname : GoString) (get : Except Error Response) (w0 w : World) (h : Handler) :
      HandlePacketInit hostname get w0 = (w, .ret h) → Reachable w h
  | poll (get : Except Error Response) (w w' : World) (h : Handler) :
      Reachable w h → UpdatesWatcher get w = (w', .ret ()) → Reachable w' h
  | check (get : Except Error Response) (w w' : World) (h h' : Handler) (n : Nat) :
      Reachable w h → updateCheck get w h = (w', n, .ret h') → Reachable w' h'

/-! ## Concrete states and responses -/

/-- A world before `HandlePacket` starts: no etag, an empty directory, no open file. -/
def world0 : World := ⟨[], [], [], 3⟩

/-- A complete response: Etag "v1", one pattern line of 8 bytes, Content-Length 8. -/
def responseV1 : Response := ⟨"v1".toList, "8".toList, "ads\\..*\n".toList, none⟩

/-- A complete response with Etag "v2": one pattern line of 2 bytes, Content-Length 2. -/
def responseV2 : Response := ⟨"v2".toList, "2".toList, "x\n".toList, none⟩

/-- A response with Etag "v2" sent with chunked transfer encoding: a body of 3
bytes and no Content-Length header. -/
def responseChunked : Response := ⟨"v2".toList, [], "abc".toList, none⟩

/-- A response without Etag header. -/
def responseNoEtag : Response := ⟨[], "8".toList, "ads\\..*\n".toList, none⟩

/-- The world after a round of `UpdatesWatcher` that saw Etag "v2" in `world1`. -/
def world2 : World :=
  ⟨"v2".toList, [("whitelist-v1".toList, "ads\\..*\n".toList)], [(3, 2)], 4⟩

/-- A whitelist file whose only line does not compile and is too long for
the buffer of the scanner: "(" and `MaxScanTokenSize` bytes "b". -/
def whitelistFileC : GoString := '(' :: (longLine ++ ['\n'])

/-- The world after `HandlePacket` started in `world0` with `responseV1`. -/
def world1 : World :=
  ⟨"v1".toList, [("whitelist-v1".toList, "ads\\..*\n".toList)], [(3, 2)], 4⟩

/-- The local variables of `HandlePacket` after that start on host "host". -/
def handler1 : Handler := ⟨"host".toList, ⟨3, "whitelist-v1".toList⟩, "v1".toList⟩

/-! ## Definitions that follow the specification's words -/

/-- The last dot-separated label of a name: the bytes after its last ".", the
whole name when it has none. -/
def lastLabel (s : GoString) : GoString :=
  (s.reverse.takeWhile (fun c => c != '.')).reverse

/-- A refresh response that fails: a network failure, a missing validation
token, or a body whose byte count is not the declared content length. -/
def FailingGet : Except Error Response → Prop
  | .error _ => True
  | .ok resp => resp.etag = [] ∨ sprintfD resp.body.length ≠ resp.contentLength


/-! # Theorems -/

/-! ## `strings.Split` on "." and the last label -/


theorem HasPrefix_single (d c : Char) (s : GoString) : HasPrefix (c :: s) [d] = (c == d) := by
  simp [HasPrefix]

theorem Index_single_none (d : Char) (s : GoString) (h : d ∉ s) : Index s [d] = none := by
  induction s with
  | nil => simp [Index]
  | cons c s ih =>
    simp only [List.mem_cons, not_or] at h
    have hc : (c == d) = false := by simpa using fun e => h.1 e.symm
    simp [Index, HasPrefix_single, hc, ih h.2]

theorem Index_single_some (d : Char) (a b : GoString) (h : d ∉ a) :
    Index (a ++ d :: b) [d] = some a.length := by
  induction a with
  | nil => simp [Index, HasPrefix_single]
  | cons c a ih =>
    simp only [List.mem_cons, not_or] at h
    have hc : (c == d) = false := by simpa using fun e => h.1 e.symm
    simp [Index, HasPrefix_single, hc, ih h.2]

theorem split_at_first (d : Char) (s : GoString) (h : d ∈ s) :
    ∃ a b, s = a ++ d :: b ∧ d ∉ a := by
  induction s with
  | nil => simp at h
  | cons c s ih =>
    by_cases hc : c = d
    · exact ⟨[], s, by simp [hc], by simp⟩
    · have hs : d ∈ s := by
        rcases List.mem_cons.1 h with e | e
        · exact absurd e.symm hc
        · exact e
      obtain ⟨a, b, e, ha⟩ := ih hs
      refine ⟨c :: a, b, by simp [e], ?_⟩
      simp only [List.mem_cons, not_or]
      exact ⟨fun e => hc e.symm, ha⟩

theorem countLoop_single (d : Char) (fuel : Nat) (s : GoString) (h : s.length ≤ fuel) :
    countLoop [d] fuel s = s.count d := by
  induction fuel generalizing s with
  | zero =>
    have : s = [] := List.length_eq_zero.1 (Nat.le_zero.1 h)
    simp [this, countLoop]
  | succ n ih =>
    by_cases hd : d ∈ s
    · obtain ⟨a, b, e, ha⟩ := split_at_first d s hd
      subst e
      have hb : b.length ≤ n := by simp at h; omega
      simp [countLoop, Index_single_some d a b ha, ih b hb, List.count_append,
        List.count_eq_zero_of_not_mem ha]
    · simp [countLoop, Index_single_none d s hd, List.count_eq_zero_of_not_mem hd]

theorem lastLabel_of_not_mem (s : GoString) (h : '.' ∉ s) : lastLabel s = s := by
  unfold lastLabel
  have : s.reverse.takeWhile (fun c => c != '.') = s.reverse := by
    rw [List.takeWhile_eq_self_iff]
    intro c hc
    have hc' : c ∈ s := List.mem_reverse.1 hc
    have hne : c ≠ '.' := fun e => h (e ▸ hc')
    simpa using hne
  rw [this, List.reverse_reverse]

theorem lastLabel_append_dot (a b : GoString) : lastLabel (a ++ '.' :: b) = lastLabel b := by
  unfold lastLabel
  have key : ∀ (l1 l2 : GoString), (l1 ++ '.' :: l2).takeWhile (fun c => c != '.')
      = l1.takeWhile (fun c => c != '.') := by
    intro l1 l2
    induction l1 with
    | nil => simp [List.takeWhile]
    | cons c l ih =>
      by_cases hc : c = '.'
      · simp [List.takeWhile, hc]
      · simp [List.takeWhile, hc, ih]
  rw [List.reverse_append, List.reverse_cons, List.append_assoc, List.singleton_append, key]

theorem genSplitLoop_getLast (n : Nat) (s : GoString) (h : s.count '.' ≤ n) :
    (genSplitLoop ['.'] n s).getLast? = some (lastLabel s) := by
  induction n generalizing s with
  | zero =>
    have hd : '.' ∉ s := List.count_eq_zero.1 (Nat.le_zero.1 h)
    simp [genSplitLoop, lastLabel_of_not_mem s hd]
  | succ n ih =>
    by_cases hd : '.' ∈ s
    · obtain ⟨a, b, e, ha⟩ := split_at_first '.' s hd
      subst e
      have hb : b.count '.' ≤ n := by
        simp [List.count_append, List.count_eq_zero_of_not_mem ha] at h
        omega
      have hdrop : (a ++ '.' :: b).drop (a.length + 1) = b := by
        rw [List.drop_append_eq_append_drop]
        simp
      simp only [genSplitLoop, Index_single_some '.' a b ha, List.length_singleton,
        lastLabel_append_dot, hdrop]
      rw [List.getLast?_cons, ih b hb]
      rfl
    · simp [genSplitLoop, Index_single_none '.' s hd, lastLabel_of_not_mem s hd]

theorem Split_dot_getLast (s : GoString) :
    (Split s ".".toList).getLast? = some (lastLabel s) := by
  have hsep : ".".toList = ['.'] := rfl
  have hc : Count s ['.'] = s.count '.' := by
    simp [Count, countLoop_single '.' s.length s (Nat.le_refl _)]
  have hle : s.count '.' ≤ s.length := List.count_le_length _ _
  rw [hsep]
  unfold Split
  rw [if_neg (by simp), hc]
  apply genSplitLoop_getLast
  omega

theorem Split_dot_index (s : GoString) :
    (Split s ".".toList)[(Split s ".".toList).length - 1]? = some (lastLabel s) := by
  rw [← List.getLast?_eq_getElem?]
  exact Split_dot_getLast s


/-! ## `FilterPacket` -/

theorem scanLoop_eq_any (R : RegexpPkg) (name : GoString) (lines : List GoString) :
    scanLoop R name lines = lines.any (fun p => (R.MatchString p name).1) := by
  induction lines with
  | nil => rfl
  | cons p rest ih =>
    simp only [scanLoop, List.any_cons, ih]
    cases (R.MatchString p name).1 <;> simp

/-- `FilterPacket` in closed form: the index into the split name always succeeds
and reads the last label. -/
theorem FilterPacket_eq (R : RegexpPkg) (question : DNSQuestion) (whitelist : Whitelist) :
    FilterPacket R question whitelist =
      if lastLabel (TrimSuffix question.Name ".".toList) = "local".toList then ⟨[], .ret 1⟩
      else if whitelist.lines.any
          (fun p => (R.MatchString p (TrimSuffix question.Name ".".toList)).1) then ⟨[], .ret 1⟩
      else
        match whitelist.err with
        | some err => ⟨[err], .exit 1⟩
        | none => ⟨[], .ret 0⟩ := by
  unfold FilterPacket
  simp only [Split_dot_index, scanLoop_eq_any]

/-- C1: a question whose name, after one trailing "." is removed, has the last
dot-separated label "local" is dropped: `FilterPacket` returns 1 and logs
nothing, whatever the whitelist holds (tokens or a scanner error). -/
theorem FilterPacket_local (R : RegexpPkg) (question : DNSQuestion) (whitelist : Whitelist)
    (h : lastLabel (TrimSuffix question.Name ".".toList) = "local".toList) :
    FilterPacket R question whitelist = ⟨[], .ret 1⟩ := by
  rw [FilterPacket_eq, if_pos h]

theorem FilterPacket_local_witness :
    lastLabel (TrimSuffix (DNSQuestion.mk "app.internal.svc.cluster.local".toList 1 1).Name
        ".".toList) = "local".toList ∧
      FilterPacket re2 (DNSQuestion.mk "app.internal.svc.cluster.local".toList 1 1) ⟨[], none⟩
        = ⟨[], .ret 1⟩ :=
  ⟨by decide, FilterPacket_local re2 _ _ (by decide)⟩

/-- C2: for a name whose last label (after one trailing "." is removed) is not
"local" and a whitelist read without scanner error, `FilterPacket` returns, and
returns non-zero exactly when some whitelist line, as a regular expression,
matches the trimmed name; for an empty whitelist it returns 0. -/
theorem FilterPacket_whitelist (R : RegexpPkg) (question : DNSQuestion) (whitelist : Whitelist)
    (hl : lastLabel (TrimSuffix question.Name ".".toList) ≠ "local".toList)
    (herr : whitelist.err = none) :
    (∃ n : Int, FilterPacket R question whitelist = ⟨[], .ret n⟩ ∧
      (n ≠ 0 ↔ ∃ p ∈ whitelist.lines,
        (R.MatchString p (TrimSuffix question.Name ".".toList)).1 = true)) ∧
    (whitelist.lines = [] → FilterPacket R question whitelist = ⟨[], .ret 0⟩) := by
  rw [FilterPacket_eq, if_neg hl, herr]
  constructor
  · by_cases hm : whitelist.lines.any
        (fun p => (R.MatchString p (TrimSuffix question.Name ".".toList)).1) = true
    · rw [if_pos hm]
      refine ⟨1, rfl, ?_⟩
      simp only [List.any_eq_true] at hm
      simpa using hm
    · rw [if_neg hm]
      refine ⟨0, rfl, ?_⟩
      simp only [List.any_eq_true] at hm
      simpa using hm
  · intro he
    simp [he]

theorem FilterPacket_whitelist_witness :
    (lastLabel (TrimSuffix (DNSQuestion.mk "ads.tracker.net".toList 1 1).Name ".".toList)
        ≠ "local".toList ∧
      (Whitelist.mk ["ads\\..*".toList] none).err = none) ∧
    ((∃ n : Int, FilterPacket re2 (DNSQuestion.mk "ads.tracker.net".toList 1 1)
          ⟨["ads\\..*".toList], none⟩ = ⟨[], .ret n⟩ ∧
        (n ≠ 0 ↔ ∃ p ∈ (Whitelist.mk ["ads\\..*".toList] none).lines,
          (re2.MatchString p
            (TrimSuffix (DNSQuestion.mk "ads.tracker.net".toList 1 1).Name ".".toList)).1
              = true)) ∧
      ((Whitelist.mk ["ads\\..*".toList] none).lines = [] →
        FilterPacket re2 (DNSQuestion.mk "ads.tracker.net".toList 1 1)
          ⟨["ads\\..*".toList], none⟩ = ⟨[], .ret 0⟩)) :=
  ⟨⟨by decide, rfl⟩, FilterPacket_whitelist re2 _ _ (by decide) rfl⟩

/-- The spec's first end-to-end example for C2: "www.example.com" with an empty
whitelist is forwarded. -/
theorem FilterPacket_example_forward :
    FilterPacket re2 (DNSQuestion.mk "www.example.com".toList 1 1) ⟨[], none⟩ = ⟨[], .ret 0⟩ := by
  decide

/-- The spec's second end-to-end example for C2: "ads.tracker.net" with the
single pattern `ads\..*` is dropped. -/
theorem FilterPacket_example_drop :
    FilterPacket re2 (DNSQuestion.mk "ads.tracker.net".toList 1 1) ⟨["ads\\..*".toList], none⟩
      = ⟨[], .ret 1⟩ := by
  decide

/-- C10: for every question name the list of labels `FilterPacket` obtains by
removing one trailing "." and splitting on "." is non-empty, the lookup of its
last element succeeds, and `FilterPacket` never panics. -/
theorem FilterPacket_labels_nonempty (name : GoString) :
    Split (TrimSuffix name ".".toList) ".".toList ≠ [] ∧
    (∃ last, (Split (TrimSuffix name ".".toList) ".".toList)[
        (Split (TrimSuffix name ".".toList) ".".toList).length - 1]? = some last) ∧
    ∀ (R : RegexpPkg) (ty cls : Nat) (whitelist : Whitelist) (msg : String),
      (FilterPacket R ⟨name, ty, cls⟩ whitelist).out ≠ .panic msg := by
  refine ⟨?_, ⟨_, Split_dot_index _⟩, ?_⟩
  · intro he
    have := Split_dot_getLast (TrimSuffix name ".".toList)
    rw [he] at this
    simp at this
  · intro R ty cls whitelist msg
    rw [FilterPacket_eq]
    split
    · simp
    · split
      · simp
      · split <;> simp

theorem re2_empty_pattern (s : GoString) : (re2.MatchString [] s).1 = true := by
  cases s <;> rfl

/-- C9: a whitelist with an empty line among the lines the scanner yields drops
every question, given that the empty regular expression matches every string:
`FilterPacket` returns 1 for every name. -/
theorem FilterPacket_empty_line (R : RegexpPkg) (question : DNSQuestion) (whitelist : Whitelist)
    (hempty : ∀ s, (R.MatchString [] s).1 = true) (hmem : [] ∈ whitelist.lines) :
    FilterPacket R question whitelist = ⟨[], .ret 1⟩ := by
  rw [FilterPacket_eq]
  split
  · rfl
  · rw [if_pos]
    exact List.any_eq_true.2 ⟨[], hmem, hempty _⟩

theorem FilterPacket_empty_line_witness :
    ((∀ s, (re2.MatchString [] s).1 = true) ∧
      [] ∈ (scanFile "ads\\..*\n\n".toList).lines) ∧
    FilterPacket re2 (DNSQuestion.mk "www.example.com".toList 1 1)
      (scanFile "ads\\..*\n\n".toList) = ⟨[], .ret 1⟩ :=
  ⟨⟨re2_empty_pattern, by decide⟩, FilterPacket_empty_line re2 _ _ re2_empty_pattern (by decide)⟩

theorem MatchString_valid (R : RegexpPkg) (p s : GoString) (h : (R.MatchString p s).1 = true) :
    R.Valid p = true := by
  unfold RegexpPkg.MatchString at h
  unfold RegexpPkg.Valid
  cases hc : R.Compile p with
  | error e => simp [hc] at h
  | ok re => rfl

theorem any_filter_valid (R : RegexpPkg) (s : GoString) (lines : List GoString) :
    (lines.filter R.Valid).any (fun p => (R.MatchString p s).1)
      = lines.any (fun p => (R.MatchString p s).1) := by
  induction lines with
  | nil => rfl
  | cons p rest ih =>
    by_cases hv : R.Valid p = true
    · simp only [List.filter_cons, hv, if_true, List.any_cons, ih]
    · have hm : (R.MatchString p s).1 = false := by
        cases h : (R.MatchString p s).1
        · rfl
        · exact absurd (MatchString_valid R p s h) hv
      have hv' : R.Valid p = false := by simpa using hv
      simp [List.filter_cons, hv', List.any_cons, ih, hm]

theorem scanFrom_cons_ne (maxTok : Nat) (c : Char) (rest cur : GoString) (h : c ≠ '\n') :
    scanFrom maxTok (c :: rest) cur = scanFrom maxTok rest (c :: cur) := by
  rw [scanFrom, if_neg h]

theorem scanFrom_newline (maxTok : Nat) (rest cur : GoString) :
    scanFrom maxTok ('\n' :: rest) cur =
      if cur.length < maxTok then
        ⟨dropCR cur.reverse :: (scanFrom maxTok rest []).lines, (scanFrom maxTok rest []).err⟩
      else ⟨[], some ErrTooLong⟩ := by
  rw [scanFrom, if_pos rfl]

theorem replicate_append_cons (n : Nat) (c : Char) (l : GoString) :
    List.replicate n c ++ c :: l = c :: (List.replicate n c ++ l) := by
  induction n with
  | zero => rfl
  | succ n ih => rw [List.replicate_succ, List.cons_append, ih, List.cons_append]

theorem scanFrom_replicate (maxTok n : Nat) (rest cur : GoString) :
    scanFrom maxTok (List.replicate n 'b' ++ rest) cur
      = scanFrom maxTok rest (List.replicate n 'b' ++ cur) := by
  induction n generalizing cur with
  | zero => rfl
  | succ n ih =>
    rw [List.replicate_succ, List.cons_append, scanFrom_cons_ne _ _ _ _ (by decide), ih,
      replicate_append_cons, List.cons_append]

theorem dropCR_replicate (n : Nat) : dropCR (List.replicate n 'b') = List.replicate n 'b' := by
  unfold dropCR
  rw [if_neg]
  intro h
  have hm : '\r' ∈ List.replicate n 'b' := List.mem_of_getLast?_eq_some h
  have := List.eq_of_mem_replicate hm
  exact absurd this (by decide)

/-- A line of `n` bytes "b" and its newline, at the start of a scan. -/
theorem scanFrom_line (maxTok n : Nat) (rest : GoString) :
    scanFrom maxTok (List.replicate n 'b' ++ '\n' :: rest) [] =
      if n < maxTok then
        ⟨List.replicate n 'b' :: (scanFrom maxTok rest []).lines, (scanFrom maxTok rest []).err⟩
      else ⟨[], some ErrTooLong⟩ := by
  rw [scanFrom_replicate, scanFrom_newline, List.append_nil, List.length_replicate,
    List.reverse_replicate, dropCR_replicate]



theorem scanFrom_nil (maxTok : Nat) : scanFrom maxTok [] [] = ⟨[], none⟩ := by
  rw [scanFrom, if_pos rfl]

theorem dropCR_a : dropCR ['a'].reverse = ['a'] := by decide

theorem scanFrom_longLine (maxTok : Nat) (rest : GoString) :
    scanFrom maxTok (longLine ++ '\n' :: rest) [] =
      if MaxScanTokenSize < maxTok then
        ⟨longLine :: (scanFrom maxTok rest []).lines, (scanFrom maxTok rest []).err⟩
      else ⟨[], some ErrTooLong⟩ :=
  scanFrom_line maxTok MaxScanTokenSize rest

theorem length_longLine : longLine.length = MaxScanTokenSize :=
  List.length_replicate _ _

theorem scanFile_fileA : scanFile whitelistFileA = ⟨[['a']], some ErrTooLong⟩ := by
  unfold scanFile whitelistFileA
  rw [scanFrom_cons_ne _ _ _ _ (by decide), scanFrom_newline, scanFrom_longLine,
    if_neg (Nat.lt_irrefl _), if_pos (by decide), dropCR_a]

theorem scanFile_fileB : scanFile whitelistFileB = ⟨[], some ErrTooLong⟩ := by
  unfold scanFile whitelistFileB
  rw [scanFrom_longLine, if_neg (Nat.lt_irrefl _)]

theorem linesFrom_replicate (n : Nat) (rest cur : GoString) :
    linesFrom (List.replicate n 'b' ++ rest) cur
      = linesFrom rest (List.replicate n 'b' ++ cur) := by
  induction n generalizing cur with
  | zero => rfl
  | succ n ih =>
    rw [List.replicate_succ, List.cons_append, linesFrom, if_neg (by decide), ih,
      replicate_append_cons, List.cons_append]

theorem linesFrom_longLine (rest : GoString) :
    linesFrom (longLine ++ '\n' :: rest) [] = longLine :: linesFrom rest [] := by
  unfold longLine
  rw [linesFrom_replicate, linesFrom, if_pos rfl, List.append_nil, List.reverse_replicate,
    dropCR_replicate]

theorem fileLines_fileA : fileLines whitelistFileA = [['a'], longLine] := by
  unfold fileLines whitelistFileA
  rw [linesFrom, if_neg (by decide), linesFrom, if_pos rfl, linesFrom_longLine, dropCR_a,
    linesFrom, if_pos rfl]

theorem fileLines_fileB : fileLines whitelistFileB = [longLine, ['a']] := by
  unfold fileLines whitelistFileB
  rw [linesFrom_longLine, linesFrom, if_neg (by decide), linesFrom, if_pos rfl, dropCR_a,
    linesFrom, if_pos rfl]

/-- A scan that ends without error yields the lines of the text. -/
theorem scanFrom_lines (maxTok : Nat) (data cur : GoString)
    (h : (scanFrom maxTok data cur).err = none) :
    (scanFrom maxTok data cur).lines = linesFrom data cur := by
  induction data generalizing cur with
  | nil =>
    unfold scanFrom at h ⊢
    unfold linesFrom
    by_cases hc : cur = []
    · simp [hc]
    · by_cases hl : cur.length < maxTok
      · simp [hc, hl]
      · simp [hc, hl] at h
  | cons c rest ih =>
    unfold scanFrom at h ⊢
    unfold linesFrom
    by_cases hc : c = '\n'
    · by_cases hl : cur.length < maxTok
      · simp only [hc, hl, if_true] at h ⊢
        rw [ih [] h]
      · simp [hc, hl] at h
    · simp only [hc, if_false] at h ⊢
      exact ih _ h

/-- C3 as stated fails: two whitelist files with the same lines in a different
order, one line too long for the scanner. With the matching line first the name
"a" is dropped; with the long line first the scan fails before any pattern is
tried and the process exits through `log.Fatal`. -/
theorem FilterPacket_order_matters :
    (fileLines whitelistFileA).Perm (fileLines whitelistFileB) ∧
    FilterPacket re2 (DNSQuestion.mk "a".toList 1 1) (scanFile whitelistFileA) = ⟨[], .ret 1⟩ ∧
    FilterPacket re2 (DNSQuestion.mk "a".toList 1 1) (scanFile whitelistFileB)
      = ⟨[ErrTooLong], .exit 1⟩ := by
  refine ⟨?_, ?_, ?_⟩
  · rw [fileLines_fileA, fileLines_fileB]
    exact List.Perm.swap _ _ _
  · rw [scanFile_fileA]
    decide
  · rw [scanFile_fileB]
    decide

theorem any_perm {α : Type} (f : α → Bool) (l₁ l₂ : List α) (h : l₁.Perm l₂) :
    l₁.any f = l₂.any f := by
  apply Bool.eq_iff_iff.2
  simp only [List.any_eq_true]
  constructor
  · rintro ⟨x, hx, hf⟩
    exact ⟨x, h.mem_iff.1 hx, hf⟩
  · rintro ⟨x, hx, hf⟩
    exact ⟨x, h.mem_iff.2 hx, hf⟩

/-- `FilterPacket` depends on the scanned lines only up to their order. -/
theorem FilterPacket_perm_err (R : RegexpPkg) (question : DNSQuestion) (w₁ w₂ : Whitelist)
    (hp : w₁.lines.Perm w₂.lines) (he : w₁.err = w₂.err) :
    FilterPacket R question w₁ = FilterPacket R question w₂ := by
  simp only [FilterPacket_eq, any_perm _ _ _ hp, he]

/-- C3, amended: for every question and every two whitelists that are both read
without a scanner error and whose line sequences are permutations of each
other, `FilterPacket` returns the same result. -/
theorem FilterPacket_perm (R : RegexpPkg) (question : DNSQuestion) (w₁ w₂ : Whitelist)
    (hp : w₁.lines.Perm w₂.lines) (h₁ : w₁.err = none) (h₂ : w₂.err = none) :
    FilterPacket R question w₁ = FilterPacket R question w₂ ∧
    ∃ n : Int, FilterPacket R question w₁ = ⟨[], .ret n⟩ := by
  refine ⟨FilterPacket_perm_err R question w₁ w₂ hp (h₁.trans h₂.symm), ?_⟩
  rw [FilterPacket_eq, h₁]
  split
  · exact ⟨1, rfl⟩
  · split
    · exact ⟨1, rfl⟩
    · exact ⟨0, rfl⟩

theorem FilterPacket_perm_witness :
    ((Whitelist.mk ["x".toList, "ads\\..*".toList] none).lines.Perm
        (Whitelist.mk ["ads\\..*".toList, "x".toList] none).lines ∧
      (Whitelist.mk ["x".toList, "ads\\..*".toList] none).err = none ∧
      (Whitelist.mk ["ads\\..*".toList, "x".toList] none).err = none) ∧
    (FilterPacket re2 (DNSQuestion.mk "ads.tracker.net".toList 1 1)
        ⟨["x".toList, "ads\\..*".toList], none⟩
      = FilterPacket re2 (DNSQuestion.mk "ads.tracker.net".toList 1 1)
        ⟨["ads\\..*".toList, "x".toList], none⟩ ∧
     ∃ n : Int, FilterPacket re2 (DNSQuestion.mk "ads.tracker.net".toList 1 1)
        ⟨["x".toList, "ads\\..*".toList], none⟩ = ⟨[], .ret n⟩) :=
  ⟨⟨List.Perm.swap _ _ _, rfl, rfl⟩,
    FilterPacket_perm re2 _ _ _ (List.Perm.swap _ _ _) rfl rfl⟩

/-- With a fixed whitelist, a question on which `FilterPacket` ends the process
excludes any question on which it returns 0. -/
theorem FilterPacket_ret_zero_err (R : RegexpPkg) (question : DNSQuestion) (whitelist : Whitelist)
    (h : (FilterPacket R question whitelist).out = .ret 0) : whitelist.err = none := by
  rw [FilterPacket_eq] at h
  split at h
  · simp at h
  · split at h
    · simp at h
    · cases he : whitelist.err with
      | none => rfl
      | some err => simp [he] at h

theorem FilterPacket_out_cases (R : RegexpPkg) (question : DNSQuestion) (whitelist : Whitelist) :
    (FilterPacket R question whitelist).out = .ret 1 ∨
    (FilterPacket R question whitelist).out = .ret 0 ∨
    ((FilterPacket R question whitelist).out = .exit 1 ∧ whitelist.err ≠ none) := by
  rw [FilterPacket_eq]
  split
  · exact Or.inl rfl
  · split
    · exact Or.inl rfl
    · cases he : whitelist.err with
      | none => exact Or.inr (Or.inl rfl)
      | some err => exact Or.inr (Or.inr ⟨rfl, by simp⟩)

theorem filter_ret_zero_of_err (R : RegexpPkg) (whitelist : Whitelist)
    (qs : List DNSQuestion) (he : whitelist.err ≠ none) :
    qs.filter (fun q => decide ((FilterPacket R q whitelist).out = .ret 0)) = [] := by
  rw [List.filter_eq_nil_iff]
  intro q _ hq
  exact he (FilterPacket_ret_zero_err R q whitelist (of_decide_eq_true hq))

theorem questionsLoop_events (R : RegexpPkg) (typeString : Nat → GoString) (clock : Nat → Nat)
    (hostname : GoString) (whitelist : Whitelist) (qs : List DNSQuestion)
    (sendData : SendDataStruct) (tick : Nat) :
    (questionsLoop R typeString clock hostname whitelist qs sendData tick).events.map
        (fun e => (e.QueryName, e.QueryType, e.Host))
      = (qs.filter (fun q => decide ((FilterPacket R q whitelist).out = .ret 0))).map
        (fun q => (q.Name, typeString q.Type', hostname)) := by
  induction qs generalizing sendData tick with
  | nil => rfl
  | cons q rest ih =>
    rcases FilterPacket_out_cases R q whitelist with h | h | ⟨h, he⟩
    · simp only [questionsLoop, h, List.filter_cons]
      simp [ih]
    · simp only [questionsLoop, h, List.filter_cons]
      simp [ih]
    · rw [filter_ret_zero_of_err R whitelist _ he]
      simp only [questionsLoop, h]
      rfl

/-- C4: with a fixed whitelist, the events `HandlePacket` sends for a packet are,
in the order of the packet's questions, one for each question on which
`FilterPacket` returns 0 and none for the others; each carries the question's
name as `QueryName`, the string form of its record type as `QueryType` and the
local hostname as `Host`. A packet without DNS layer sends nothing. -/
theorem HandlePacket_events (R : RegexpPkg) (typeString : Nat → GoString) (clock : Nat → Nat)
    (hostname : GoString) (whitelist : Whitelist) (questions : List DNSQuestion) (tick : Nat) :
    (handleOnePacket R typeString clock hostname whitelist (some questions) tick).events.map
        (fun e => (e.QueryName, e.QueryType, e.Host))
      = (questions.filter (fun q => decide ((FilterPacket R q whitelist).out = .ret 0))).map
        (fun q => (q.Name, typeString q.Type', hostname)) ∧
    (handleOnePacket R typeString clock hostname whitelist none tick).events = [] :=
  ⟨questionsLoop_events R typeString clock hostname whitelist questions _ tick, rfl⟩

theorem parseLoop_b (rest : GoString) (prev : Prev) (f : Frame) (stack : List Frame)
    (hp : prev ≠ .backslash) :
    parseLoop ('b' :: rest) prev f stack = parseLoop rest .other (f.push (.chr 'b')) stack := by
  simp [parseLoop, hp]

theorem parseLoop_unclosed (n : Nat) (prev : Prev) (f g : Frame) (stack : List Frame)
    (hp : prev ≠ .backslash) :
    parseLoop (List.replicate n 'b') prev f (g :: stack) = .error "missing closing )" := by
  induction n generalizing prev f with
  | zero =>
    simp [parseLoop, hp]
  | succ n ih =>
    rw [List.replicate_succ, parseLoop_b _ _ _ _ hp]
    exact ih _ _ (by decide)

theorem compile_unclosed (n : Nat) :
    re2.Compile ('(' :: List.replicate n 'b') = .error "missing closing )" := by
  show parseLoop ('(' :: List.replicate n 'b') .other ⟨[], []⟩ [] = _
  have h : parseLoop ('(' :: List.replicate n 'b') .other ⟨[], []⟩ []
      = parseLoop (List.replicate n 'b') .opened ⟨[], []⟩ [⟨[], []⟩] := by
    simp [parseLoop]
  rw [h]
  exact parseLoop_unclosed _ _ _ _ _ (by decide)

theorem re2_longLine_invalid : re2.Valid ('(' :: longLine) = false := by
  unfold RegexpPkg.Valid
  rw [show re2.Compile ('(' :: longLine) = .error "missing closing )" from
    compile_unclosed MaxScanTokenSize]

theorem dropCR_of_not_mem (l : GoString) (h : '\r' ∉ l) : dropCR l = l := by
  unfold dropCR
  rw [if_neg]
  intro hl
  exact h (List.mem_of_getLast?_eq_some hl)

theorem scanFrom_paren_line (maxTok n : Nat) (rest : GoString) (h : maxTok ≤ n + 1) :
    scanFrom maxTok ('(' :: (List.replicate n 'b' ++ '\n' :: rest)) []
      = ⟨[], some ErrTooLong⟩ := by
  rw [scanFrom_cons_ne _ _ _ _ (by decide), scanFrom_replicate, scanFrom_newline, if_neg]
  simp only [List.length_append, List.length_replicate, List.length_singleton]
  omega

theorem linesFrom_paren_line (n : Nat) :
    linesFrom ('(' :: (List.replicate n 'b' ++ ['\n'])) [] = ['(' :: List.replicate n 'b'] := by
  rw [linesFrom, if_neg (by decide), linesFrom_replicate, linesFrom, if_pos rfl, linesFrom,
    if_pos rfl, List.reverse_append, List.reverse_replicate, List.reverse_singleton,
    List.singleton_append, dropCR_of_not_mem]
  intro h
  rcases List.mem_cons.1 h with e | e
  · exact absurd e (by decide)
  · exact absurd (List.eq_of_mem_replicate e) (by decide)

theorem scanFile_fileC : scanFile whitelistFileC = ⟨[], some ErrTooLong⟩ :=
  scanFrom_paren_line MaxScanTokenSize MaxScanTokenSize [] (Nat.le_succ _)

theorem fileLines_fileC : fileLines whitelistFileC = ['(' :: longLine] :=
  linesFrom_paren_line MaxScanTokenSize


/-- `FilterPacket` gives the same result for two whitelists whose scans end the
same way when the second holds the lines of the first that compile. -/
theorem FilterPacket_of_filter (R : RegexpPkg) (question : DNSQuestion) (w₁ w₂ : Whitelist)
    (he : w₁.err = w₂.err) (hl : w₂.lines = w₁.lines.filter R.Valid) :
    FilterPacket R question w₁ = FilterPacket R question w₂ := by
  simp only [FilterPacket_eq, hl, any_filter_valid, he]

/-- For whitelist files: when both files are scanned without error and the
second has the lines of the first that compile, `FilterPacket` gives the same
result for both. -/
theorem FilterPacket_of_filter_files (R : RegexpPkg) (question : DNSQuestion)
    (data data' : GoString) (h₁ : (scanFile data).err = none) (h₂ : (scanFile data').err = none)
    (hl : fileLines data' = (fileLines data).filter R.Valid) :
    FilterPacket R question (scanFile data) = FilterPacket R question (scanFile data') := by
  apply FilterPacket_of_filter R question _ _ (h₁.trans h₂.symm)
  rw [show (scanFile data').lines = fileLines data' from scanFrom_lines _ _ _ h₂,
    show (scanFile data).lines = fileLines data from scanFrom_lines _ _ _ h₁]
  exact hl

/-- C5, amended: a line that is not a valid regular expression is skipped as
non-matching and matching goes on without a panic: for every name and every
whitelist read without a scanner error, `FilterPacket` gives the same result as
for the whitelist, read without a scanner error too, that holds its valid lines
only. The invalid pattern is not reported: `FilterPacket` returns and nothing is
logged. -/
theorem FilterPacket_skips_invalid (R : RegexpPkg) (question : DNSQuestion)
    (w₁ w₂ : Whitelist) (h₁ : w₁.err = none) (h₂ : w₂.err = none)
    (hl : w₂.lines = w₁.lines.filter R.Valid) :
    FilterPacket R question w₁ = FilterPacket R question w₂ ∧
    ∃ n : Int, FilterPacket R question w₁ = ⟨[], .ret n⟩ := by
  refine ⟨FilterPacket_of_filter R question w₁ w₂ (h₁.trans h₂.symm) hl, ?_⟩
  rw [FilterPacket_eq, h₁]
  split
  · exact ⟨1, rfl⟩
  · split
    · exact ⟨1, rfl⟩
    · exact ⟨0, rfl⟩

theorem FilterPacket_skips_invalid_witness :
    ((Whitelist.mk ["(".toList, "ads\\..*".toList] none).err = none ∧
      (Whitelist.mk ["ads\\..*".toList] none).err = none ∧
      (Whitelist.mk ["ads\\..*".toList] none).lines
        = (Whitelist.mk ["(".toList, "ads\\..*".toList] none).lines.filter re2.Valid) ∧
    (FilterPacket re2 (DNSQuestion.mk "ads.tracker.net".toList 1 1)
        ⟨["(".toList, "ads\\..*".toList], none⟩
      = FilterPacket re2 (DNSQuestion.mk "ads.tracker.net".toList 1 1)
        ⟨["ads\\..*".toList], none⟩ ∧
     ∃ n : Int, FilterPacket re2 (DNSQuestion.mk "ads.tracker.net".toList 1 1)
        ⟨["(".toList, "ads\\..*".toList], none⟩ = ⟨[], .ret n⟩) :=
  ⟨⟨rfl, rfl, by decide⟩, FilterPacket_skips_invalid re2 _ _ _ rfl rfl (by decide)⟩

/-- C5 as stated fails twice. With the single whitelist line "(", which does
not compile, the name "a" is forwarded and nothing at all is logged. And with a
whitelist file whose only line does not compile and is too long for the scanner,
the process exits through `log.Fatal`, while for the file without that line
(the empty file) `FilterPacket` returns 0. -/
theorem FilterPacket_invalid_not_logged :
    (re2.Valid "(".toList = false ∧
      (re2.MatchString "(".toList "a".toList).2 = some "missing closing )" ∧
      FilterPacket re2 (DNSQuestion.mk "a".toList 1 1) ⟨["(".toList], none⟩ = ⟨[], .ret 0⟩) ∧
    (re2.Valid ('(' :: longLine) = false ∧
      fileLines whitelistFileC = ['(' :: longLine] ∧
      fileLines [] = (fileLines whitelistFileC).filter re2.Valid ∧
      FilterPacket re2 (DNSQuestion.mk "a".toList 1 1) (scanFile whitelistFileC)
        = ⟨[ErrTooLong], .exit 1⟩ ∧
      FilterPacket re2 (DNSQuestion.mk "a".toList 1 1) (scanFile []) = ⟨[], .ret 0⟩) := by
  refine ⟨by decide, re2_longLine_invalid, fileLines_fileC, ?_, ?_, by decide⟩
  · rw [fileLines_fileC, List.filter_cons, re2_longLine_invalid]
    rfl
  · rw [scanFile_fileC]
    decide

theorem fcntlSetFl_etag (w w' : World) (f : OsFile) (flags : Nat)
    (h : fcntlSetFl w f flags = .ok w') : w'.etag = w.etag := by
  unfold fcntlSetFl at h
  split at h
  · cases h; rfl
  · cases h

theorem download_ret (flags : Int) (get : Except Error Response) (w w' : World) (f : OsFile)
    (h : download flags get w = (w', .ret f)) : w'.etag ≠ [] := by
  unfold download at h
  cases get with
  | error err => simp at h
  | ok resp =>
    simp only at h
    split at h
    · simp at h
    · rename_i hne
      split at h
      · simp at h
      · split at h
        · simp at h
        · split at h
          · simp at h
          · split at h
            · simp at h
            · simp only [Prod.mk.injEq, Exec.ret.injEq] at h
              rw [← h.1]
              exact hne

theorem osRemove_etag (w w' : World) (name : GoString) (h : osRemove w name = .ok w') :
    w'.etag = w.etag := by
  unfold osRemove at h
  split at h
  · cases h; rfl
  · cases h

theorem releaseOld_etag (whitelist : Option OsFile) (w : World) :
    (releaseOld whitelist w).1.etag = w.etag := by
  unfold releaseOld
  cases whitelist with
  | none => rfl
  | some old =>
    simp only
    cases fcntlGetFl w old with
    | error err => rfl
    | ok flags =>
      simp only
      cases hr : osRemove (closeFile w old) old.name with
      | error err => rfl
      | ok w1 => exact osRemove_etag (closeFile w old) w1 _ hr

theorem updateWhiteList_ret (whitelist : Option OsFile) (get : Except Error Response)
    (w w' : World) (f : OsFile) (h : updateWhiteList whitelist get w = (w', .ret f)) :
    w'.etag ≠ [] := by
  unfold updateWhiteList at h
  split at h
  · simp at h
  · exact download_ret _ _ _ _ _ h

theorem UpdatesWatcher_ret (get : Except Error Response) (w w' : World)
    (hw : w.etag ≠ []) (h : UpdatesWatcher get w = (w', .ret ())) : w'.etag ≠ [] := by
  unfold UpdatesWatcher at h
  cases get with
  | error err => simp at h
  | ok resp =>
    simp only at h
    split at h
    · simp at h
    · rename_i hne
      split at h
      · simp only [Prod.mk.injEq] at h
        rw [← h.1]
        exact hne
      · simp only [Prod.mk.injEq] at h
        rw [← h.1]
        exact hw

theorem updateCheck_ret (get : Except Error Response) (w w' : World) (h h' : Handler) (n : Nat)
    (hw : w.etag ≠ []) (hc : updateCheck get w h = (w', n, .ret h')) : w'.etag ≠ [] := by
  unfold updateCheck at hc
  split at hc
  · split at hc
    · rename_i w1 f hu
      simp only [Prod.mk.injEq] at hc
      rw [← hc.1]
      exact updateWhiteList_ret _ _ _ _ _ hu
    · simp at hc
    · simp at hc
  · simp only [Prod.mk.injEq] at hc
    rw [← hc.1]
    exact hw

/-- In every state `HandlePacket` reaches, the stored etag is not empty. -/
theorem Reachable.etag_ne (w : World) (h : Handler) (hr : Reachable w h) : w.etag ≠ [] := by
  induction hr with
  | init hostname get w0 w h hi =>
    unfold HandlePacketInit at hi
    split at hi
    · rename_i w1 f hu
      simp only [Prod.mk.injEq] at hi
      rw [← hi.1]
      exact updateWhiteList_ret _ _ _ _ _ hu
    · simp at hi
    · simp at hi
  | poll get w w' h _ hp ih => exact UpdatesWatcher_ret get w w' ih hp
  | check get w w' h h' n _ hc ih => exact updateCheck_ret get w w' h h' n ih hc

/-- C6, amended: for every non-empty stored etag `e` that `HandlePacket`
remembers (its own copy is `e` too), a round of `UpdatesWatcher` in which the
remote source returns Etag `e` leaves the world (the stored etag with it) as it
is, and the update check of `HandlePacket` then does not call `updateWhiteList`:
the world and the whitelist file object are the ones from before. -/
theorem no_reconstruction (w : World) (h : Handler) (resp : Response)
    (get : Except Error Response) (hne : getEtag w ≠ []) (hsync : h.etag = getEtag w)
    (hsame : resp.etag = getEtag w) :
    UpdatesWatcher (.ok resp) w = (w, .ret ()) ∧
    getEtag (UpdatesWatcher (.ok resp) w).1 = getEtag w ∧
    updateCheck get (UpdatesWatcher (.ok resp) w).1 h = (w, 0, .ret h) := by
  have hne' : resp.etag ≠ [] := by
    rw [hsame]
    exact hne
  have hu : UpdatesWatcher (.ok resp) w = (w, .ret ()) := by
    unfold UpdatesWatcher
    simp only [hne', if_false]
    rw [if_neg (by simp [hsame])]
  refine ⟨hu, by rw [hu], ?_⟩
  rw [hu]
  unfold updateCheck
  simp only [hsync, ne_eq, not_true_eq_false, if_false]

theorem reachable_world1 : Reachable world1 handler1 :=
  Reachable.init "host".toList (.ok responseV1) world0 world1 handler1 (by decide)

theorem reachable_world2 : Reachable world2 handler1 :=
  Reachable.poll (.ok responseV2) world1 world2 handler1 reachable_world1 (by decide)

theorem no_reconstruction_witness :
    (getEtag world1 ≠ [] ∧ handler1.etag = getEtag world1 ∧
      responseV1.etag = getEtag world1) ∧
    (UpdatesWatcher (.ok responseV1) world1 = (world1, .ret ()) ∧
      getEtag (UpdatesWatcher (.ok responseV1) world1).1 = getEtag world1 ∧
      updateCheck (.ok responseV2) (UpdatesWatcher (.ok responseV1) world1).1 handler1
        = (world1, 0, .ret handler1)) :=
  ⟨⟨by decide, by decide, by decide⟩,
    no_reconstruction world1 handler1 responseV1 (.ok responseV2) (by decide)
      (by decide) (by decide)⟩

/-- C6 as stated fails twice. In the state `HandlePacket` reaches when a round
of `UpdatesWatcher` has stored "v2" while `HandlePacket` still remembers "v1", a
further round that returns Etag "v2" leaves the stored etag "v2", and the update
check then calls `updateWhiteList` once and replaces the whitelist file object.
And before the start, with the stored etag empty, a round in which the remote
source returns an empty Etag panics. -/
theorem stale_etag_reconstructs :
    (Reachable world2 handler1 ∧ getEtag world2 = responseV2.etag ∧
      UpdatesWatcher (.ok responseV2) world2 = (world2, .ret ()) ∧
      (updateCheck (.ok responseV2) (UpdatesWatcher (.ok responseV2) world2).1 handler1).2.1
        = 1 ∧
      (updateCheck (.ok responseV2) (UpdatesWatcher (.ok responseV2) world2).1 handler1).2.2
        = .ret ⟨"host".toList, ⟨4, "whitelist-v2".toList⟩, "v2".toList⟩ ∧
      handler1.whitelist = ⟨3, "whitelist-v1".toList⟩) ∧
    (getEtag world0 = responseNoEtag.etag ∧
      UpdatesWatcher (.ok responseNoEtag) world0
        = (world0, .panic "Etag not found in header")) :=
  ⟨⟨reachable_world2, by decide, by decide, by decide, by decide, by decide⟩,
    by decide, by decide⟩

/-- C7 as stated fails: in the state after start, a refresh answered with Etag
"v2" and a chunked body of 3 bytes (no Content-Length header, an answer
`net/http` delivers) panics on the length check with the stored etag still
"v1", but the previous whitelist file, open and present before the call, is
closed and removed after it. -/
theorem updateWhiteList_mismatch_loses_old :
    responseChunked.deliverable = true ∧
    world1.isOpen handler1.whitelist = true ∧
    world1.hasFile handler1.whitelist.name = true ∧
    (updateWhiteList (some handler1.whitelist) (.ok responseChunked) world1).2
      = .panic "Couldn't get full DNS whitelist" ∧
    getEtag (updateWhiteList (some handler1.whitelist) (.ok responseChunked) world1).1
      = getEtag world1 ∧
    (updateWhiteList (some handler1.whitelist) (.ok responseChunked) world1).1.isOpen
      handler1.whitelist = false ∧
    (updateWhiteList (some handler1.whitelist) (.ok responseChunked) world1).1.hasFile
      handler1.whitelist.name = false := by
  decide

/-- C8 as stated fails: after start, a network failure makes a round of
`UpdatesWatcher` panic, and a response without Etag does so too; a network
failure and a length mismatch (a chunked body, no Content-Length header) make
`updateWhiteList` with the previous whitelist panic. -/
theorem refresh_failure_crashes :
    UpdatesWatcher (.error "connection refused") world1
      = (world1, .panic "connection refused") ∧
    (UpdatesWatcher (.ok responseNoEtag) world1).2 = .panic "Etag not found in header" ∧
    (updateWhiteList (some handler1.whitelist) (.error "connection refused") world1).2
      = .panic "connection refused" ∧
    (updateWhiteList (some handler1.whitelist) (.ok responseChunked) world1).2
      = .panic "Couldn't get full DNS whitelist" := by
  decide

theorem lookup_filter_ne {α β : Type} [BEq α] [LawfulBEq α] [DecidableEq α] (k : α) (l : List (α × β)) :
    (l.filter (fun e => decide (e.1 ≠ k))).lookup k = none := by
  induction l with
  | nil => rfl
  | cons e rest ih =>
    obtain ⟨a, b⟩ := e
    rw [List.filter_cons]
    by_cases he : a = k
    · rw [if_neg (by simpa using he)]
      exact ih
    · rw [if_pos (by simpa using he), List.lookup_cons]
      have hne : (k == a) = false := beq_eq_false_iff_ne.2 (fun h => he h.symm)
      simp only [hne]
      exact ih

theorem lookup_map_snd {α β : Type} [BEq α] [LawfulBEq α] (k : α) (g : α × β → α × β)
    (hg : ∀ e, (g e).1 = e.1) (l : List (α × β)) (h : l.lookup k = none) :
    (l.map g).lookup k = none := by
  induction l with
  | nil => rfl
  | cons e rest ih =>
    obtain ⟨a, b⟩ := e
    rw [List.lookup_cons] at h
    have hga : (g (a, b)).1 = a := hg (a, b)
    rw [List.map_cons]
    cases hk : (k == a) with
    | true => simp [hk] at h
    | false =>
      simp only [hk] at h
      have : g (a, b) = ((g (a, b)).1, (g (a, b)).2) := rfl
      rw [this, List.lookup_cons, hga, hk]
      exact ih h

theorem openFile_valid (w : World) (name : GoString) (hv : validFileName name = true) :
    ∃ w' f, openFile w name = .ok (w', f) := by
  unfold openFile
  rw [if_pos hv]
  exact ⟨_, _, rfl⟩

theorem openFile_spec (w w' : World) (name : GoString) (f : OsFile)
    (h : openFile w name = .ok (w', f)) :
    f = ⟨w.nextId, name⟩ ∧ w'.etag = w.etag ∧ w'.opened = (w.nextId, O_RDWR) :: w.opened ∧
    ∀ k, k ≠ name → w.files.lookup k = none → w'.files.lookup k = none := by
  unfold openFile at h
  split at h
  · simp only [Except.ok.injEq, Prod.mk.injEq] at h
    obtain ⟨hw, hf⟩ := h
    subst hw hf
    refine ⟨rfl, rfl, rfl, ?_⟩
    intro k hk hnone
    simp only
    split
    · exact hnone
    · have hne : (k == name) = false := by simpa using hk
      rw [List.lookup_cons]
      simp only [hne]
      exact hnone
  · cases h

theorem writeBody_lookup_none (w : World) (f : OsFile) (body k : GoString)
    (h : w.files.lookup k = none) : (writeBody w f body).files.lookup k = none := by
  unfold writeBody
  apply lookup_map_snd _ _ _ _ h
  intro e
  split <;> rfl

/-- The world `download` leaves when it fails on the length check. -/
theorem download_mismatch (flags : Int) (resp : Response) (w w' : World) (f : OsFile)
    (ho : openFile w ("whitelist-".toList ++ resp.etag) = .ok (w', f))
    (hetag : resp.etag ≠ []) (hbody : resp.bodyErr = none)
    (hlen : sprintfD resp.body.length ≠ resp.contentLength) :
    download flags (.ok resp) w
      = (writeBody w' f resp.body, .panic "Couldn't get full DNS whitelist") := by
  unfold download
  simp only [hetag, if_false, ho, hbody, hlen, ne_eq, not_false_eq_true, if_true]

/-- C7, amended: when `updateWhiteList`, called with a previous whitelist that
is open and present, gets as far as the length check (the new file can be
opened, the body ends without error) and fails on it, it panics with the stored
etag the one from before the call; the previous whitelist file has by then
been closed and, unless the new file has its name, removed. -/
theorem updateWhiteList_length_mismatch (old : OsFile) (resp : Response) (w : World)
    (hopen : w.isOpen old = true) (hfile : w.hasFile old.name = true)
    (hid : old.id < w.nextId)
    (hetag : resp.etag ≠ [])
    (hname : validFileName ("whitelist-".toList ++ resp.etag) = true)
    (hbody : resp.bodyErr = none)
    (hlen : sprintfD resp.body.length ≠ resp.contentLength) :
    (updateWhiteList (some old) (.ok resp) w).2 = .panic "Couldn't get full DNS whitelist" ∧
    getEtag (updateWhiteList (some old) (.ok resp) w).1 = getEtag w ∧
    (updateWhiteList (some old) (.ok resp) w).1.isOpen old = false ∧
    (old.name ≠ "whitelist-".toList ++ resp.etag →
      (updateWhiteList (some old) (.ok resp) w).1.hasFile old.name = false) := by
  obtain ⟨flags, hfl⟩ : ∃ flags, w.opened.lookup old.id = some flags :=
    Option.isSome_iff_exists.1 hopen
  obtain ⟨data, hdata⟩ : ∃ data, w.files.lookup old.name = some data :=
    Option.isSome_iff_exists.1 hfile
  have hrel : releaseOld (some old) w =
      ({ w with files := w.files.filter (fun e => decide (e.1 ≠ old.name)),
                opened := w.opened.filter (fun e => decide (e.1 ≠ old.id)) },
        .ok (flags : Int)) := by
    simp only [releaseOld, fcntlGetFl, hfl, osRemove, closeFile, hdata]
  obtain ⟨w', f, ho⟩ := openFile_valid
    { w with files := w.files.filter (fun e => decide (e.1 ≠ old.name)),
             opened := w.opened.filter (fun e => decide (e.1 ≠ old.id)) }
    ("whitelist-".toList ++ resp.etag) hname
  obtain ⟨_, he, hop, hlook⟩ := openFile_spec _ _ _ _ ho
  have hup : updateWhiteList (some old) (.ok resp) w =
      (writeBody w' f resp.body, .panic "Couldn't get full DNS whitelist") := by
    unfold updateWhiteList
    rw [hrel]
    exact download_mismatch _ resp _ _ _ ho hetag hbody hlen
  rw [hup]
  refine ⟨rfl, ?_, ?_, ?_⟩
  · show (writeBody w' f resp.body).etag = w.etag
    exact he
  · have hne : (old.id == w.nextId) = false := by simpa using Nat.ne_of_lt hid
    show ((writeBody w' f resp.body).opened.lookup old.id).isSome = false
    have : (writeBody w' f resp.body).opened = w'.opened := rfl
    rw [this, hop, List.lookup_cons]
    simp only [hne]
    rw [lookup_filter_ne]
    rfl
  · intro hn
    simp only [World.hasFile]
    rw [writeBody_lookup_none, Option.isSome_none]
    exact hlook _ hn (lookup_filter_ne _ _)

theorem updateWhiteList_length_mismatch_witness :
    (world1.isOpen handler1.whitelist = true ∧ world1.hasFile handler1.whitelist.name = true ∧
      handler1.whitelist.id < world1.nextId ∧ responseChunked.etag ≠ [] ∧
      validFileName ("whitelist-".toList ++ responseChunked.etag) = true ∧
      responseChunked.bodyErr = none ∧
      sprintfD responseChunked.body.length ≠ responseChunked.contentLength) ∧
    ((updateWhiteList (some handler1.whitelist) (.ok responseChunked) world1).2
        = .panic "Couldn't get full DNS whitelist" ∧
      getEtag (updateWhiteList (some handler1.whitelist) (.ok responseChunked) world1).1
        = getEtag world1 ∧
      (updateWhiteList (some handler1.whitelist) (.ok responseChunked) world1).1.isOpen
        handler1.whitelist = false ∧
      (handler1.whitelist.name ≠ "whitelist-".toList ++ responseChunked.etag →
        (updateWhiteList (some handler1.whitelist) (.ok responseChunked) world1).1.hasFile
          handler1.whitelist.name = false)) :=
  ⟨⟨by decide, by decide, by decide, by decide, by decide, by decide, by decide⟩,
    updateWhiteList_length_mismatch handler1.whitelist responseChunked world1
      (by decide) (by decide) (by decide) (by decide) (by decide) (by decide) (by decide)⟩

theorem download_failing (flags : Int) (get : Except Error Response) (w : World)
    (hf : FailingGet get) : ∃ msg, (download flags get w).2 = .panic msg := by
  unfold download
  cases get with
  | error err => exact ⟨err, rfl⟩
  | ok resp =>
    simp only
    by_cases he : resp.etag = []
    · exact ⟨"Etag not found in header", by rw [if_pos he]⟩
    · have hlen : sprintfD resp.body.length ≠ resp.contentLength := by
        rcases hf with h | h
        · exact absurd h he
        · exact h
      rw [if_neg he]
      cases ho : openFile w ("whitelist-".toList ++ resp.etag) with
      | error err => exact ⟨err, rfl⟩
      | ok p =>
        obtain ⟨w', f⟩ := p
        cases hb : resp.bodyErr with
        | some err => exact ⟨err, rfl⟩
        | none =>
          exact ⟨"Couldn't get full DNS whitelist",
            by simp only [hlen, ne_eq, not_false_eq_true, if_true]⟩

/-- C8, amended: a network failure, a missing validation token or a length
mismatch on a refresh makes `updateWhiteList` panic, whatever whitelist it is
given; a network failure or a missing validation token makes a round of
`UpdatesWatcher` panic, which does not look at the length. A panic ends the
process. -/
theorem refresh_failure_panics (whitelist : Option OsFile) (get : Except Error Response)
    (w : World) (hf : FailingGet get) :
    (∃ msg, (updateWhiteList whitelist get w).2 = .panic msg) ∧
    ((∀ resp, get = .ok resp → resp.etag = []) →
      ∃ msg, UpdatesWatcher get w = (w, .panic msg)) := by
  constructor
  · unfold updateWhiteList
    split
    · exact ⟨_, rfl⟩
    · exact download_failing _ _ _ hf
  · intro h
    unfold UpdatesWatcher
    cases get with
    | error err => exact ⟨err, rfl⟩
    | ok resp => exact ⟨"Etag not found in header", by simp only [h resp rfl, if_true]⟩

theorem refresh_failure_panics_witness :
    FailingGet (.ok responseNoEtag) ∧
    ((∃ msg, (updateWhiteList (some handler1.whitelist) (.ok responseNoEtag) world1).2
        = .panic msg) ∧
      ((∀ resp, (Except.ok responseNoEtag : Except Error Response) = .ok resp →
          resp.etag = []) →
        ∃ msg, UpdatesWatcher (.ok responseNoEtag) world1 = (world1, .panic msg))) :=
  ⟨Or.inl rfl, refresh_failure_panics (some handler1.whitelist) _ world1 (Or.inl rfl)⟩

/-- An Etag with a "/" in it, such as the weak validator W/"v2": `os.OpenFile`
fails and `updateWhiteList` panics there, with the world as it was. -/
theorem updateWhiteList_slash_etag :
    updateWhiteList none (.ok ⟨"W/\"v2\"".toList, "2".toList, "x\n".toList, none⟩) world0
      = (world0, .panic "open: no such file or directory") := by
  decide

end DnsLogger
